import Mathlib

/-!
Shallow embedding of the multi-tier job-scraping orchestrator from
`directives/lead_magnet_outreach.md` (the `execution/job_scraper.py` program:
`PLATFORM_ROUTING`, `scrape_platform`, `main`'s aggregation loop), of the
`_parse_results` record builders of the individual scrapers, and of the
deduplication stage.

Modelling conventions:
* A scraper call `SCRAPER_INSTANCES[tier].scrape(platform, query, count)`
  inside one `scrape_platform` invocation is a function `fetch : String →
  FetchResult` from the tier name to either a record list (`ok`) or a raised
  exception (`exn msg`).  `platform`, `query` and `count` are fixed for the
  whole invocation, so they are not parameters of `fetch`.
* Python's float test `len(results) >= count * 0.5` on integers is embedded
  as `count ≤ 2 * results.length`, which is equivalent in exact arithmetic
  (and IEEE doubles halve integers below 2^53 exactly).
* The per-attempt diagnostics `scrape_platform` prints (one line per tier
  tried, marked success / insufficient / failed) are materialised as the
  returned list of `FetchOutcome`, so temporal claims about the attempt
  sequence can be stated.
-/

namespace JobScraper

/-- A parsed job record: the dict built by the scrapers' parse functions.
Every field of the Python dict may be `None`, hence `Option String`.
Fields absent from a given scraper's dict are embedded as `none`. -/
structure Record where
  title : Option String
  company : Option String
  location : Option String
  description : Option String
  url : Option String
  posted_date : Option String
  salary : Option String
  source : Option String
  platform : Option String
  deriving DecidableEq

/-- Behaviour of one `scraper.scrape(platform, query, count)` call for a fixed
platform/query/count: it either returns a list of records or raises. -/
inductive FetchResult where
  | ok (records : List Record)
  | exn (msg : String)
  deriving DecidableEq

/-- One tier attempt as logged by `scrape_platform`: the tier tried, the
records it returned (empty when it raised), and the caught exception text. -/
structure FetchOutcome where
  tier : String
  records : List Record
  error : Option String
  deriving DecidableEq

/-- The dict returned by `scrape_platform`: platform, satisfying tier (or
"none"), count, jobs, and the error field present only in the all-tiers-failed
return. -/
structure PlatformResult where
  platform : String
  tier : String
  count : Nat
  jobs : List Record
  error : Option String
  deriving DecidableEq

/-- `PLATFORM_ROUTING` from `execution/job_scraper.py`, verbatim. -/
def PLATFORM_ROUTING : List (String × List String) :=
  [("linkedin", ["brightdata", "serpapi", "playwright"]),
   ("indeed", ["serpapi", "scraperapi", "playwright"]),
   ("stepstone", ["scraperapi", "playwright"]),
   ("greenhouse", ["firecrawl", "playwright"]),
   ("lever", ["firecrawl", "playwright"]),
   ("workday", ["firecrawl", "playwright"]),
   ("ashby", ["firecrawl", "playwright"])]

/-- `PLATFORM_ROUTING.get(platform, ['playwright'])`. -/
def tiers_for (platform : String) : List String :=
  (PLATFORM_ROUTING.lookup platform).getD ["playwright"]

/-- The loop body of `scrape_platform` over the remaining tier chain.
Returns the result dict together with the ordered attempt log.

```python
for tier in tiers:
    try:
        results = await scraper.scrape(platform, query, count)
        if len(results) >= count * 0.5:
            return {'platform': platform, 'tier': tier,
                    'count': len(results), 'jobs': results}
    except Exception as e:
        ...  # fall through to next tier
return {'platform': platform, 'tier': 'none', 'count': 0, 'jobs': [],
        'error': 'All tiers failed'}
``` -/
def scrapeTiers (fetch : String → FetchResult) (platform : String) (count : Nat) :
    List String → PlatformResult × List FetchOutcome
  | [] => (⟨platform, "none", 0, [], some "All tiers failed"⟩, [])
  | tier :: rest =>
    match fetch tier with
    | .ok results =>
      if count ≤ 2 * results.length then
        (⟨platform, tier, results.length, results, none⟩, [⟨tier, results, none⟩])
      else
        ((scrapeTiers fetch platform count rest).1,
         ⟨tier, results, none⟩ :: (scrapeTiers fetch platform count rest).2)
    | .exn e =>
      ((scrapeTiers fetch platform count rest).1,
       ⟨tier, [], some e⟩ :: (scrapeTiers fetch platform count rest).2)

/-- `scrape_platform(platform, query, count)`: run the fallback chain that the
routing table assigns to `platform`. -/
def scrape_platform (fetch : String → FetchResult) (platform : String) (count : Nat) :
    PlatformResult × List FetchOutcome :=
  scrapeTiers fetch platform count (tiers_for platform)

/-- The validation test of `scrape_platform` applied to a logged attempt:
the attempt completed without an exception and yielded at least half of the
requested count. -/
def accepts (count : Nat) (o : FetchOutcome) : Prop :=
  o.error = none ∧ count ≤ 2 * o.records.length

instance (count : Nat) (o : FetchOutcome) : Decidable (accepts count o) := by
  unfold accepts
  exact inferInstance

/-- `stats` dict assembled by `main`'s aggregation loop. -/
structure Stats where
  total_jobs : Nat
  by_platform : List (String × Nat)
  by_tier : List (String × Nat)
  deriving DecidableEq

/-- `d[k] = v` on a Python dict embedded as an insertion-ordered association
list: overwrite in place when the key exists, append otherwise. -/
def setKey (m : List (String × Nat)) (k : String) (v : Nat) : List (String × Nat) :=
  if (m.lookup k).isSome then
    m.map (fun p => if p.1 = k then (k, v) else p)
  else
    m ++ [(k, v)]

/-- `d[k] = d.get(k, 0) + v`. -/
def addKey (m : List (String × Nat)) (k : String) (v : Nat) : List (String × Nat) :=
  setKey m k ((m.lookup k).getD 0 + v)

/-- One iteration of `main`'s aggregation loop:
`all_jobs.extend(jobs)`, `stats['total_jobs'] += len(jobs)`,
`stats['by_platform'][platform] = len(jobs)`,
`stats['by_tier'][tier] = stats['by_tier'].get(tier, 0) + len(jobs)`. -/
def aggregateStep (acc : List Record × Stats) (result : PlatformResult) :
    List Record × Stats :=
  (acc.1 ++ result.jobs,
   { total_jobs := acc.2.total_jobs + result.jobs.length,
     by_platform := setKey acc.2.by_platform result.platform result.jobs.length,
     by_tier := addKey acc.2.by_tier result.tier result.jobs.length })

/-- `main`'s aggregation over the gathered per-platform results, starting from
`all_jobs = []` and `stats = {'total_jobs': 0, 'by_platform': {}, 'by_tier': {}}`. -/
def aggregate (results : List PlatformResult) : List Record × Stats :=
  results.foldl aggregateStep ([], ⟨0, [], []⟩)

/-- `main`: resolve every requested platform (the fetch behaviour may differ
per platform) and aggregate.  Returns the per-platform results alongside
`(all_jobs, stats)`. -/
def mainRun (fetch : String → String → FetchResult) (platforms : List String)
    (count : Nat) : List PlatformResult × (List Record × Stats) :=
  let results := platforms.map (fun p => (scrape_platform (fetch p) p count).1)
  (results, aggregate results)

/-- Sum of the values of an association-list dict. -/
def sumVals (m : List (String × Nat)) : Nat :=
  (m.map Prod.snd).sum

/-- One element of the raw BrightData response, reduced to the fields
`BrightDataScraper._parse_results` reads via `item.get(...)` (each read yields
`None` when the key is missing, hence `Option String`). -/
structure BDItem where
  job_title : Option String
  company_name : Option String
  job_location : Option String
  job_description : Option String
  job_url : Option String
  posted_date : Option String
  salary_range : Option String
  deriving DecidableEq

/-- `BrightDataScraper._parse_results(raw_data)`. -/
def brightdata_parse_results (raw_data : List BDItem) : List Record :=
  raw_data.map fun item =>
    { title := item.job_title,
      company := item.company_name,
      location := item.job_location,
      description := item.job_description,
      url := item.job_url,
      posted_date := item.posted_date,
      salary := item.salary_range,
      source := some "brightdata",
      platform := some "linkedin" }

/-- One element of SerpAPI's `jobs_results`, reduced to the fields
`SerpAPIScraper._parse_results` reads.  `related_links` holds the `link`
value of each entry of the raw list (the code takes the first entry's link
when the list is truthy, `None` otherwise); `posted_at` and `salary` come
from `detected_extensions`. -/
structure SerpItem where
  title : Option String
  company_name : Option String
  location : Option String
  description : Option String
  related_links : List (Option String)
  posted_at : Option String
  salary : Option String
  deriving DecidableEq

/-- `SerpAPIScraper._parse_results(raw_data, platform)`. -/
def serpapi_parse_results (raw_data : List SerpItem) (platform : String) :
    List Record :=
  raw_data.map fun item =>
    { title := item.title,
      company := item.company_name,
      location := item.location,
      description := item.description,
      url := match item.related_links with
             | [] => none
             | l :: _ => l,
      posted_date := item.posted_at,
      salary := item.salary,
      source := some "serpapi",
      platform := some platform }

/-- One LinkedIn job card as `PlaywrightScraper._scrape_linkedin` reads it:
the inner text of the optional title/company/location elements and the href
of the optional link element (`None` when the element is absent). -/
structure LinkedInCard where
  title : Option String
  company : Option String
  location : Option String
  link : Option String
  deriving DecidableEq

/-- The record-building loop of `PlaywrightScraper._scrape_linkedin`:
`for card in job_cards[:count]: jobs.append({...})`. -/
def playwright_scrape_linkedin (job_cards : List LinkedInCard) (count : Nat) :
    List Record :=
  (job_cards.take count).map fun card =>
    { title := card.title,
      company := card.company,
      location := card.location,
      description := none,
      url := card.link,
      posted_date := none,
      salary := none,
      source := some "playwright",
      platform := some "linkedin" }

/-- Split a character list into maximal whitespace-free words; `cur` holds the
(reversed) word being read. -/
def normWords (cur : List Char) : List Char → List (List Char)
  | [] => if cur = [] then [] else [cur.reverse]
  | c :: cs =>
    if c.isWhitespace then
      if cur = [] then normWords [] cs else cur.reverse :: normWords [] cs
    else normWords (c :: cur) cs

/-- Join words with single spaces. -/
def joinWords : List (List Char) → List Char
  | [] => []
  | [w] => w
  | w :: ws => w ++ (' ' :: joinWords ws)

/-- Modelled from the spec: `execution/deduplicate_jobs.py` is invoked by the
directive but its source is not in the repository, so field normalisation
follows §4.5 / §3 of the design: lower-cased and whitespace-collapsed. -/
def normalizeField (s : String) : String :=
  String.mk (joinWords (normWords [] (s.data.map Char.toLower)))

/-- Modelled from the spec: the Identity Key of a record, the normalised
combination of title, organization (company) and location; a missing field
contributes the empty string. -/
def identityKey (r : Record) : String × String × String :=
  (normalizeField (r.title.getD ""),
   normalizeField (r.company.getD ""),
   normalizeField (r.location.getD ""))

/-- Modelled from the spec: the Deduplicator's scan — the first record seen
for a given identity key is retained, later records with a key already seen
are discarded unchanged. -/
def dedupeGo (seen : List (String × String × String)) :
    List Record → List Record
  | [] => []
  | r :: rs =>
    if identityKey r ∈ seen then dedupeGo seen rs
    else r :: dedupeGo (identityKey r :: seen) rs

/-- Modelled from the spec: `dedupe(records)` of `execution/deduplicate_jobs.py`
(absent from the repository), per §4.5: process records in order, keep the
first record per identity key. -/
def dedupe (records : List Record) : List Record :=
  dedupeGo [] records

/-- A value found by association-list lookup is among the stored values. -/
theorem lookup_mem_values {α β : Type} [BEq α] (l : List (α × β)) (k : α) (v : β)
    (h : l.lookup k = some v) : v ∈ l.map Prod.snd := by
  induction l with
  | nil => simp [List.lookup] at h
  | cons a t ih =>
    obtain ⟨k', v'⟩ := a
    rw [List.lookup] at h
    cases hbeq : k == k' with
    | true => simp [hbeq] at h; simp [h]
    | false =>
      simp only [hbeq] at h
      exact List.mem_cons_of_mem _ (ih h)

/-- Every chain the routing table can produce is duplicate-free. -/
theorem tiers_for_nodup (platform : String) : (tiers_for platform).Nodup := by
  unfold tiers_for
  cases h : PLATFORM_ROUTING.lookup platform with
  | none => simp only [Option.getD_none]; decide
  | some v =>
    have hv := lookup_mem_values _ _ _ h
    simp only [PLATFORM_ROUTING, List.map_cons, List.map_nil, List.mem_cons,
      List.not_mem_nil, or_false] at hv
    simp only [Option.getD_some]
    rcases hv with rfl | rfl | rfl | rfl | rfl | rfl | rfl <;> decide

/-- Every chain the routing table can produce is non-empty. -/
theorem tiers_for_ne_nil (platform : String) : tiers_for platform ≠ [] := by
  unfold tiers_for
  cases h : PLATFORM_ROUTING.lookup platform with
  | none => simp
  | some v =>
    have hv := lookup_mem_values _ _ _ h
    simp only [PLATFORM_ROUTING, List.map_cons, List.map_nil, List.mem_cons,
      List.not_mem_nil, or_false] at hv
    simp only [Option.getD_some]
    rcases hv with rfl | rfl | rfl | rfl | rfl | rfl | rfl <;> decide

/-- The result dict always carries the requested platform. -/
theorem scrapeTiers_platform (fetch : String → FetchResult) (p : String)
    (count : Nat) (tiers : List String) :
    (scrapeTiers fetch p count tiers).1.platform = p := by
  induction tiers with
  | nil => rfl
  | cons t rest ih =>
    simp only [scrapeTiers]
    cases hf : fetch t with
    | ok results =>
      by_cases hc : count ≤ 2 * results.length
      · simp [hc]
      · simpa [hc] using ih
    | exn e => simpa using ih

/-- The logged attempts are precisely an initial segment of the tier chain:
tiers are tried strictly in chain order, none skipped, none revisited. -/
theorem scrapeTiers_map_tier (fetch : String → FetchResult) (p : String)
    (count : Nat) (tiers : List String) :
    (scrapeTiers fetch p count tiers).2.map FetchOutcome.tier
      = tiers.take (scrapeTiers fetch p count tiers).2.length := by
  induction tiers with
  | nil => rfl
  | cons t rest ih =>
    simp only [scrapeTiers]
    cases hf : fetch t with
    | ok results =>
      by_cases hc : count ≤ 2 * results.length
      · simp [hc]
      · simp only [hc, if_false, List.map_cons, List.length_cons,
          List.take_succ_cons]
        exact congrArg _ ih
    | exn e =>
      simp only [List.map_cons, List.length_cons, List.take_succ_cons]
      exact congrArg _ ih

/-- Unfolding equation for a chain head whose fetch returns records. -/
theorem scrapeTiers_cons_ok (fetch : String → FetchResult) (p : String)
    (count : Nat) (t : String) (rest : List String) (results : List Record)
    (hf : fetch t = .ok results) :
    scrapeTiers fetch p count (t :: rest) =
      if count ≤ 2 * results.length then
        (⟨p, t, results.length, results, none⟩, [⟨t, results, none⟩])
      else
        ((scrapeTiers fetch p count rest).1,
         ⟨t, results, none⟩ :: (scrapeTiers fetch p count rest).2) := by
  simp [scrapeTiers, hf]

/-- Unfolding equation for a chain head whose fetch raises. -/
theorem scrapeTiers_cons_exn (fetch : String → FetchResult) (p : String)
    (count : Nat) (t : String) (rest : List String) (e : String)
    (hf : fetch t = .exn e) :
    scrapeTiers fetch p count (t :: rest) =
      ((scrapeTiers fetch p count rest).1,
       ⟨t, [], some e⟩ :: (scrapeTiers fetch p count rest).2) := by
  simp [scrapeTiers, hf]

/-- `getLast?` ignores the head when the tail is non-empty. -/
theorem getLast?_cons_of_ne_nil {α : Type} (a : α) (l : List α) (h : l ≠ []) :
    (a :: l).getLast? = l.getLast? := by
  cases l with
  | nil => exact absurd rfl h
  | cons x xs => exact List.getLast?_cons_cons

/-- An attempt that passes validation is the final one and supplies the whole
result: its tier, its record count and its exact record list. -/
theorem scrapeTiers_accepts_result (fetch : String → FetchResult) (p : String)
    (count : Nat) (tiers : List String) (o : FetchOutcome)
    (ho : o ∈ (scrapeTiers fetch p count tiers).2) (hacc : accepts count o) :
    (scrapeTiers fetch p count tiers).1
        = ⟨p, o.tier, o.records.length, o.records, none⟩ ∧
      (scrapeTiers fetch p count tiers).2.getLast? = some o := by
  induction tiers with
  | nil => simp [scrapeTiers] at ho
  | cons t rest ih =>
    cases hf : fetch t with
    | ok results =>
      by_cases hc : count ≤ 2 * results.length
      · simp only [scrapeTiers_cons_ok fetch p count t rest results hf, hc,
          if_true, List.mem_singleton] at ho
        subst ho
        simp [scrapeTiers_cons_ok fetch p count t rest results hf, hc]
      · simp only [scrapeTiers_cons_ok fetch p count t rest results hf, hc,
          if_false, List.mem_cons] at ho
        rcases ho with rfl | ho
        · exact absurd hacc.2 hc
        · have h' := ih ho
          have hne : (scrapeTiers fetch p count rest).2 ≠ [] := by
            intro hnil
            rw [hnil] at ho
            exact List.not_mem_nil o ho
          simp only [scrapeTiers_cons_ok fetch p count t rest results hf, hc,
            if_false]
          exact ⟨h'.1, by rw [getLast?_cons_of_ne_nil _ _ hne]; exact h'.2⟩
    | exn e =>
      simp only [scrapeTiers_cons_exn fetch p count t rest e hf,
        List.mem_cons] at ho
      rcases ho with rfl | ho
      · exact absurd hacc.1 (by simp)
      · have h' := ih ho
        have hne : (scrapeTiers fetch p count rest).2 ≠ [] := by
          intro hnil
          rw [hnil] at ho
          exact List.not_mem_nil o ho
        simp only [scrapeTiers_cons_exn fetch p count t rest e hf]
        exact ⟨h'.1, by rw [getLast?_cons_of_ne_nil _ _ hne]; exact h'.2⟩

/-- Every attempt before the final one failed validation: it either raised or
under-yielded, so no tier is ever attempted after one met the threshold. -/
theorem scrapeTiers_dropLast_rejected (fetch : String → FetchResult) (p : String)
    (count : Nat) (tiers : List String) (o : FetchOutcome)
    (ho : o ∈ (scrapeTiers fetch p count tiers).2.dropLast) :
    ¬ accepts count o := by
  induction tiers with
  | nil => simp [scrapeTiers] at ho
  | cons t rest ih =>
    cases hf : fetch t with
    | ok results =>
      by_cases hc : count ≤ 2 * results.length
      · simp [scrapeTiers_cons_ok fetch p count t rest results hf, hc] at ho
      · simp only [scrapeTiers_cons_ok fetch p count t rest results hf, hc,
          if_false] at ho
        cases hrest : (scrapeTiers fetch p count rest).2 with
        | nil => rw [hrest] at ho; simp at ho
        | cons x xs =>
          rw [hrest, List.dropLast_cons₂, ← hrest] at ho
          rcases List.mem_cons.mp ho with rfl | ho'
          · intro hacc
            exact hc hacc.2
          · exact ih ho'
    | exn e =>
      simp only [scrapeTiers_cons_exn fetch p count t rest e hf] at ho
      cases hrest : (scrapeTiers fetch p count rest).2 with
      | nil => rw [hrest] at ho; simp at ho
      | cons x xs =>
        rw [hrest, List.dropLast_cons₂, ← hrest] at ho
        rcases List.mem_cons.mp ho with rfl | ho'
        · intro hacc
          simp [accepts] at hacc
        · exact ih ho'

/-- If every tier of the chain raises or under-yields, the loop falls through
to the all-tiers-failed dict. -/
theorem scrapeTiers_exhausted (fetch : String → FetchResult) (p : String)
    (count : Nat) (tiers : List String)
    (h : ∀ t ∈ tiers, ∀ rs, fetch t = .ok rs → 2 * rs.length < count) :
    (scrapeTiers fetch p count tiers).1
      = ⟨p, "none", 0, [], some "All tiers failed"⟩ := by
  induction tiers with
  | nil => rfl
  | cons t rest ih =>
    simp only [scrapeTiers]
    cases hf : fetch t with
    | ok results =>
      have hlt := h t (List.mem_cons_self t rest) results hf
      have hc : ¬ count ≤ 2 * results.length := by omega
      simpa [hc] using ih (fun t' ht' => h t' (List.mem_cons_of_mem _ ht'))
    | exn e =>
      simpa using ih (fun t' ht' => h t' (List.mem_cons_of_mem _ ht'))

/-- When a satisfying tier is reported, the jobs are exactly what that tier's
fetch returned: nothing from earlier attempts is merged in. -/
theorem scrapeTiers_tier_fetch (fetch : String → FetchResult) (p : String)
    (count : Nat) (tiers : List String)
    (h : (scrapeTiers fetch p count tiers).1.tier ≠ "none") :
    fetch (scrapeTiers fetch p count tiers).1.tier
        = .ok (scrapeTiers fetch p count tiers).1.jobs ∧
      (scrapeTiers fetch p count tiers).1.count
        = (scrapeTiers fetch p count tiers).1.jobs.length ∧
      (scrapeTiers fetch p count tiers).1.error = none ∧
      count ≤ 2 * (scrapeTiers fetch p count tiers).1.jobs.length := by
  induction tiers with
  | nil => exact absurd rfl h
  | cons t rest ih =>
    cases hf : fetch t with
    | ok results =>
      by_cases hc : count ≤ 2 * results.length
      · rw [scrapeTiers_cons_ok fetch p count t rest results hf, if_pos hc]
        exact ⟨hf, rfl, rfl, hc⟩
      · simp only [scrapeTiers_cons_ok fetch p count t rest results hf, hc,
          if_false] at h ⊢
        exact ih h
    | exn e =>
      simp only [scrapeTiers_cons_exn fetch p count t rest e hf] at h ⊢
      exact ih h

/-- The only error the controller ever surfaces is its own exhaustion marker:
a fetcher's exception text never escapes into the result dict. -/
theorem scrapeTiers_error_contained (fetch : String → FetchResult) (p : String)
    (count : Nat) (tiers : List String) :
    (scrapeTiers fetch p count tiers).1.error = none ∨
      (scrapeTiers fetch p count tiers).1
        = ⟨p, "none", 0, [], some "All tiers failed"⟩ := by
  induction tiers with
  | nil => exact Or.inr rfl
  | cons t rest ih =>
    cases hf : fetch t with
    | ok results =>
      by_cases hc : count ≤ 2 * results.length
      · simp [scrapeTiers_cons_ok fetch p count t rest results hf, hc]
      · simpa [scrapeTiers_cons_ok fetch p count t rest results hf, hc]
          using ih
    | exn e =>
      simpa [scrapeTiers_cons_exn fetch p count t rest e hf] using ih

/-- A fetch that raises at every tier leaves the exhaustion dict and one
failed outcome per chain element, in chain order. -/
theorem scrapeTiers_raise_all (fetch : String → FetchResult) (p : String)
    (count : Nat) (tiers : List String)
    (h : ∀ t, ∃ e, fetch t = .exn e) :
    (scrapeTiers fetch p count tiers).1
        = ⟨p, "none", 0, [], some "All tiers failed"⟩ ∧
      (scrapeTiers fetch p count tiers).2.map FetchOutcome.tier = tiers ∧
      ∀ o ∈ (scrapeTiers fetch p count tiers).2,
        o.records = [] ∧ o.error.isSome := by
  induction tiers with
  | nil => exact ⟨rfl, rfl, by simp [scrapeTiers]⟩
  | cons t rest ih =>
    obtain ⟨e, he⟩ := h t
    simp only [scrapeTiers_cons_exn fetch p count t rest e he, List.map_cons,
      List.mem_cons]
    refine ⟨ih.1, by rw [ih.2.1], ?_⟩
    rintro o (rfl | ho)
    · exact ⟨rfl, rfl⟩
    · exact ih.2.2 o ho

/-- With a zero desired count, a chain head whose fetch completes without
raising is always accepted. -/
theorem scrapeTiers_zero_head_ok (fetch : String → FetchResult) (p : String)
    (t : String) (rest : List String) (results : List Record)
    (hf : fetch t = .ok results) :
    scrapeTiers fetch p 0 (t :: rest)
      = (⟨p, t, results.length, results, none⟩, [⟨t, results, none⟩]) := by
  simp [scrapeTiers_cons_ok fetch p 0 t rest results hf]

/-- `total_jobs` accumulates the lengths of the per-platform job lists. -/
theorem foldl_agg_total (results : List PlatformResult) (acc : List Record × Stats) :
    (results.foldl aggregateStep acc).2.total_jobs
      = acc.2.total_jobs + (results.map (fun r => r.jobs.length)).sum := by
  induction results generalizing acc with
  | nil => simp
  | cons r rs ih =>
    rw [List.foldl_cons, ih]
    simp [aggregateStep]
    omega

/-- `all_jobs` accumulates exactly as many records as `total_jobs` counts. -/
theorem foldl_agg_len (results : List PlatformResult) (acc : List Record × Stats) :
    (results.foldl aggregateStep acc).1.length
      = acc.1.length + (results.map (fun r => r.jobs.length)).sum := by
  induction results generalizing acc with
  | nil => simp
  | cons r rs ih =>
    rw [List.foldl_cons, ih]
    simp [aggregateStep]
    omega

/-- Writing a fresh key appends it. -/
theorem setKey_lookup_none (m : List (String × Nat)) (k : String) (v : Nat)
    (h : m.lookup k = none) : setKey m k v = m ++ [(k, v)] := by
  simp [setKey, h]

/-- `sumVals` distributes over append. -/
theorem sumVals_append (a b : List (String × Nat)) :
    sumVals (a ++ b) = sumVals a + sumVals b := by
  simp [sumVals]

/-- Appending a fresh entry under a different key keeps a key absent. -/
theorem lookup_append_single_none (m : List (String × Nat)) (k k' : String)
    (v : Nat) (h : m.lookup k' = none) (hk : k' ≠ k) :
    (m ++ [(k, v)]).lookup k' = none := by
  induction m with
  | nil =>
    have : (k' == k) = false := beq_eq_false_iff_ne.mpr hk
    simp [List.lookup, this]
  | cons a t ih =>
    obtain ⟨ka, va⟩ := a
    rw [List.cons_append, List.lookup]
    rw [List.lookup] at h
    cases hbeq : k' == ka with
    | true => simp [hbeq] at h
    | false =>
      simp only [hbeq] at h ⊢
      exact ih h

/-- With pairwise-distinct platforms whose keys are all fresh, the values of
`by_platform` sum to the records contributed. -/
theorem foldl_agg_by_platform (results : List PlatformResult)
    (acc : List Record × Stats)
    (hnd : (results.map (fun r => r.platform)).Nodup)
    (hfresh : ∀ r ∈ results, acc.2.by_platform.lookup r.platform = none) :
    sumVals (results.foldl aggregateStep acc).2.by_platform
      = sumVals acc.2.by_platform + (results.map (fun r => r.jobs.length)).sum := by
  induction results generalizing acc with
  | nil => simp
  | cons r rs ih =>
    rw [List.foldl_cons]
    rw [List.map_cons, List.nodup_cons] at hnd
    have hr := hfresh r (List.mem_cons_self r rs)
    have hstep : (aggregateStep acc r).2.by_platform
        = acc.2.by_platform ++ [(r.platform, r.jobs.length)] := by
      simp [aggregateStep, setKey_lookup_none _ _ _ hr]
    rw [ih (aggregateStep acc r) hnd.2 ?fresh]
    case fresh =>
      intro r' hr'
      rw [hstep]
      refine lookup_append_single_none _ _ _ _
        (hfresh r' (List.mem_cons_of_mem _ hr')) ?_
      intro hEq
      exact hnd.1 (hEq ▸ List.mem_map_of_mem (fun x => x.platform) hr')
    rw [hstep, sumVals_append]
    simp [sumVals]
    omega

/-- Each requested platform contributes the result of its own resolution, in
request order. -/
theorem map_result_platform (fetch : String → String → FetchResult)
    (platforms : List String) (count : Nat) :
    (platforms.map (fun p => (scrape_platform (fetch p) p count).1)).map
        (fun r => r.platform) = platforms := by
  induction platforms with
  | nil => rfl
  | cons p ps ih =>
    simp only [scrape_platform] at ih
    simp only [List.map_cons, scrape_platform, scrapeTiers_platform, ih]

/-- The deduplicated output is a sublist of the input: first-seen order is
preserved and records are kept verbatim. -/
theorem dedupeGo_sublist (seen : List (String × String × String))
    (l : List Record) : (dedupeGo seen l).Sublist l := by
  induction l generalizing seen with
  | nil => simp [dedupeGo]
  | cons r rs ih =>
    by_cases h : identityKey r ∈ seen
    · simp only [dedupeGo, if_pos h]
      exact (ih seen).cons r
    · simp only [dedupeGo, if_neg h]
      exact (ih (identityKey r :: seen)).cons₂ r

/-- A retained record's key was not among the already-seen keys. -/
theorem dedupeGo_key_not_seen (seen : List (String × String × String))
    (l : List Record) (r : Record) (hr : r ∈ dedupeGo seen l) :
    identityKey r ∉ seen := by
  induction l generalizing seen with
  | nil => simp [dedupeGo] at hr
  | cons a t ih =>
    by_cases h : identityKey a ∈ seen
    · rw [dedupeGo, if_pos h] at hr
      exact ih seen hr
    · rw [dedupeGo, if_neg h] at hr
      rcases List.mem_cons.mp hr with rfl | hr'
      · exact h
      · intro hmem
        exact ih _ hr' (List.mem_cons_of_mem _ hmem)

/-- Deduplication is idempotent. -/
theorem dedupeGo_idem (l : List Record) :
    ∀ seen, dedupeGo seen (dedupeGo seen l) = dedupeGo seen l := by
  induction l with
  | nil => intro seen; simp [dedupeGo]
  | cons r rs ih =>
    intro seen
    by_cases h : identityKey r ∈ seen
    · simp only [dedupeGo, if_pos h]
      exact ih seen
    · simp only [dedupeGo, if_neg h]
      rw [ih (identityKey r :: seen)]

/-- No two retained records share an identity key. -/
theorem dedupeGo_pairwise (seen : List (String × String × String))
    (l : List Record) :
    (dedupeGo seen l).Pairwise (fun a b => identityKey a ≠ identityKey b) := by
  induction l generalizing seen with
  | nil => simp [dedupeGo]
  | cons r rs ih =>
    by_cases h : identityKey r ∈ seen
    · simp only [dedupeGo, if_pos h]
      exact ih seen
    · simp only [dedupeGo, if_neg h]
      refine List.Pairwise.cons ?_ (ih _)
      intro b hb
      have := dedupeGo_key_not_seen _ _ _ hb
      intro hEq
      exact this (hEq ▸ List.mem_cons_self _ _)

/-- The first input record bearing a given identity key (not yet seen) is
retained. -/
theorem dedupeGo_first_mem (l : List Record) :
    ∀ (seen : List (String × String × String)) (r : Record),
      identityKey r ∉ seen →
      (l.filter (fun x => decide (identityKey x = identityKey r))).head?
        = some r →
      r ∈ dedupeGo seen l := by
  induction l with
  | nil =>
    intro seen r _ h
    simp at h
  | cons a t ih =>
    intro seen r hseen h
    by_cases hpa : identityKey a = identityKey r
    · rw [List.filter_cons, if_pos (by simpa using hpa)] at h
      have ha : a = r := by simpa using h
      subst ha
      rw [dedupeGo, if_neg hseen]
      exact List.mem_cons_self _ _
    · rw [List.filter_cons, if_neg (by simpa using hpa)] at h
      by_cases hmem : identityKey a ∈ seen
      · rw [dedupeGo, if_pos hmem]
        exact ih seen r hseen h
      · rw [dedupeGo, if_neg hmem]
        refine List.mem_cons_of_mem _ (ih _ r ?_ h)
        intro hc
        rcases List.mem_cons.mp hc with hEq | hc'
        · exact hpa hEq.symm
        · exact hseen hc'

/-- C1 counterexample: with desired count zero and a fetcher that raises on
every call, a first tier is attempted ("brightdata") yet no tier is accepted —
the resolution ends with tier "none" — contradicting the claim that with zero
desired count the first tier attempted is accepted regardless of yield. -/
theorem zero_count_first_tier_cex :
    ((scrape_platform (fun _ => FetchResult.exn "boom") "linkedin" 0).2.map
        FetchOutcome.tier).head? = some "brightdata" ∧
      (scrape_platform (fun _ => FetchResult.exn "boom") "linkedin" 0).1.tier
        = "none" :=
  ⟨rfl, rfl⟩

/-- C1 (amended): the controller accepts a tier's outcome iff its record count
is at least half the requested count — any logged attempt passing that test is
the one returned, and an accepted result with non-zero desired count has
`final_count ≥ ceil(desired_count * 0.5)`; when the desired count is zero, the
first tier attempted is accepted regardless of yield provided its fetch
completes without raising (a raising first tier is skipped instead). -/
theorem threshold_acceptance (fetch : String → FetchResult) (platform : String)
    (count : Nat) :
    (∀ o ∈ (scrape_platform fetch platform count).2, accepts count o →
        (scrape_platform fetch platform count).1
          = ⟨platform, o.tier, o.records.length, o.records, none⟩) ∧
      ((scrape_platform fetch platform count).1.tier ≠ "none" →
        count ≤ 2 * (scrape_platform fetch platform count).1.count ∧
          (count ≠ 0 →
            (count + 1) / 2 ≤ (scrape_platform fetch platform count).1.count)) ∧
      (count = 0 → ∀ t results, (tiers_for platform).head? = some t →
        fetch t = .ok results →
        (scrape_platform fetch platform count).1.tier = t) := by
  simp only [scrape_platform]
  refine ⟨?_, ?_, ?_⟩
  · intro o ho hacc
    exact (scrapeTiers_accepts_result fetch platform count (tiers_for platform)
      o ho hacc).1
  · intro hne
    have h := scrapeTiers_tier_fetch fetch platform count (tiers_for platform) hne
    rw [h.2.1]
    exact ⟨h.2.2.2, fun _ => by omega⟩
  · rintro rfl t results hhead hf
    cases htiers : tiers_for platform with
    | nil => rw [htiers] at hhead; simp at hhead
    | cons t0 rest =>
      rw [htiers] at hhead
      simp only [List.head?_cons, Option.some_inj] at hhead
      subst hhead
      rw [scrapeTiers_cons_ok fetch platform 0 t0 rest results hf,
        if_pos (Nat.zero_le _)]

/-- C1 witness: a one-record yield against a requested count of one is
accepted and meets the ceiling bound. -/
theorem threshold_acceptance_check :
    1 ≤ (scrape_platform
        (fun _ => FetchResult.ok
          [⟨none, none, none, none, none, none, none, none, none⟩])
        "linkedin" 1).1.count :=
  ((threshold_acceptance
      (fun _ => FetchResult.ok
        [⟨none, none, none, none, none, none, none, none, none⟩])
      "linkedin" 1).2.1 (by decide)).2 (by decide)

/-- C2: for every domain (whose chain is non-empty), one resolution logs
attempts that form an initial segment of the routing chain (strict chain
order, no tier skipped or revisited), every attempt before the last one
failed validation (so no tier runs after one met the threshold), and a
fetcher whose first call yields exactly the desired count ends the chain
after exactly one attempt. -/
theorem resolve_chain_order (fetch : String → FetchResult) (platform : String)
    (count : Nat) (hne : tiers_for platform ≠ []) :
    ((scrape_platform fetch platform count).2.map FetchOutcome.tier
        = (tiers_for platform).take
            (scrape_platform fetch platform count).2.length) ∧
      ((scrape_platform fetch platform count).2.map FetchOutcome.tier).Nodup ∧
      (∀ o ∈ (scrape_platform fetch platform count).2.dropLast,
        ¬ accepts count o) ∧
      (∀ t results, (tiers_for platform).head? = some t →
        fetch t = .ok results → results.length = count →
        (scrape_platform fetch platform count).2.length = 1) := by
  simp only [scrape_platform]
  refine ⟨scrapeTiers_map_tier fetch platform count (tiers_for platform),
    ?_, ?_, ?_⟩
  · rw [scrapeTiers_map_tier fetch platform count (tiers_for platform)]
    exact (tiers_for_nodup platform).sublist (List.take_sublist _ _)
  · intro o ho
    exact scrapeTiers_dropLast_rejected fetch platform count
      (tiers_for platform) o ho
  · intro t results hhead hf hlen
    cases htiers : tiers_for platform with
    | nil => exact absurd htiers hne
    | cons t0 rest =>
      rw [htiers] at hhead
      simp only [List.head?_cons, Option.some_inj] at hhead
      subst hhead
      rw [scrapeTiers_cons_ok fetch platform count t0 rest results hf,
        if_pos (by omega)]
      rfl

/-- C2 witness: a first tier returning exactly the requested ten records
short-circuits LinkedIn's three-tier chain at length one. -/
theorem resolve_chain_order_check :
    (scrape_platform
        (fun t => if t = "brightdata" then
            FetchResult.ok (List.replicate 10
              ⟨none, none, none, none, none, none, none, none, none⟩)
          else FetchResult.exn "down")
        "linkedin" 10).2.length = 1 :=
  (resolve_chain_order
      (fun t => if t = "brightdata" then
          FetchResult.ok (List.replicate 10
            ⟨none, none, none, none, none, none, none, none, none⟩)
        else FetchResult.exn "down")
      "linkedin" 10 (by decide)).2.2.2 "brightdata"
    (List.replicate 10 ⟨none, none, none, none, none, none, none, none, none⟩)
    (by decide) (by simp) (by simp)

/-- C3: when every tier of a domain's chain raises or under-yields, the
resolution returns (rather than throws) the zero-record dict with tier
"none", that dict appears in the run report, and every requested domain's
independently computed result appears in the report as well. -/
theorem exhaustion_surfaced (F : String → String → FetchResult)
    (platforms : List String) (platform : String) (count : Nat)
    (hmem : platform ∈ platforms)
    (hfail : ∀ t ∈ tiers_for platform, ∀ rs, F platform t = .ok rs →
      2 * rs.length < count) :
    (scrape_platform (F platform) platform count).1
        = ⟨platform, "none", 0, [], some "All tiers failed"⟩ ∧
      (⟨platform, "none", 0, [], some "All tiers failed"⟩ : PlatformResult)
        ∈ (mainRun F platforms count).1 ∧
      ∀ q ∈ platforms,
        (scrape_platform (F q) q count).1 ∈ (mainRun F platforms count).1 := by
  have h1 : (scrape_platform (F platform) platform count).1
      = ⟨platform, "none", 0, [], some "All tiers failed"⟩ :=
    scrapeTiers_exhausted (F platform) platform count (tiers_for platform) hfail
  refine ⟨h1, ?_, ?_⟩
  · rw [← h1]
    simp only [mainRun]
    exact List.mem_map_of_mem _ hmem
  · intro q hq
    simp only [mainRun]
    exact List.mem_map_of_mem _ hq

/-- C3 witness: a fetcher that always raises exhausts LinkedIn's chain and its
"none" dict is surfaced in the report. -/
theorem exhaustion_surfaced_check :
    (⟨"linkedin", "none", 0, [], some "All tiers failed"⟩ : PlatformResult)
      ∈ (mainRun (fun _ _ => FetchResult.exn "x") ["linkedin"] 5).1 :=
  (exhaustion_surfaced (fun _ _ => FetchResult.exn "x") ["linkedin"] "linkedin"
    5 (by simp) (by intro t ht rs h; simp at h)).2.1

/-- C4: an exception raised by the fetcher during one tier attempt is caught
inside that attempt: the attempt is logged as a failed outcome with an empty
record sequence and the resolution proceeds with the remaining chain; the
controller never surfaces a fetcher's exception — its result either has no
error or is its own exhaustion dict. -/
theorem fetcher_error_isolated (fetch : String → FetchResult)
    (platform : String) (count : Nat) (t : String) (rest : List String)
    (e : String) (hf : fetch t = .exn e) :
    scrapeTiers fetch platform count (t :: rest)
        = ((scrapeTiers fetch platform count rest).1,
           ⟨t, [], some e⟩ :: (scrapeTiers fetch platform count rest).2) ∧
      ((scrape_platform fetch platform count).1.error = none ∨
        (scrape_platform fetch platform count).1
          = ⟨platform, "none", 0, [], some "All tiers failed"⟩) :=
  ⟨scrapeTiers_cons_exn fetch platform count t rest e hf,
   scrapeTiers_error_contained fetch platform count (tiers_for platform)⟩

/-- C4 witness: a raising first tier is logged as a failed empty outcome and
the loop falls through to the rest of the chain. -/
theorem fetcher_error_isolated_check :
    scrapeTiers (fun _ => FetchResult.exn "rate limited") "linkedin" 10
        ["brightdata", "serpapi"]
      = ((scrapeTiers (fun _ => FetchResult.exn "rate limited") "linkedin" 10
            ["serpapi"]).1,
         ⟨"brightdata", [], some "rate limited"⟩ ::
           (scrapeTiers (fun _ => FetchResult.exn "rate limited") "linkedin" 10
             ["serpapi"]).2) :=
  (fetcher_error_isolated (fun _ => FetchResult.exn "rate limited") "linkedin"
    10 "brightdata" ["serpapi"] "rate limited" rfl).1

/-- C5: a fetcher that raises on every call yields a result with zero records
and satisfying tier "none", while the attempt history lists every tier of the
domain's chain, in order — its length equals the chain length and every entry
is a failed attempt. -/
theorem all_raise_full_history (fetch : String → FetchResult)
    (platform : String) (count : Nat) (h : ∀ t, ∃ e, fetch t = .exn e) :
    (scrape_platform fetch platform count).1.count = 0 ∧
      (scrape_platform fetch platform count).1.jobs = [] ∧
      (scrape_platform fetch platform count).1.tier = "none" ∧
      (scrape_platform fetch platform count).2.length
        = (tiers_for platform).length ∧
      (scrape_platform fetch platform count).2.map FetchOutcome.tier
        = tiers_for platform ∧
      ∀ o ∈ (scrape_platform fetch platform count).2,
        o.records = [] ∧ o.error.isSome := by
  simp only [scrape_platform]
  have h' := scrapeTiers_raise_all fetch platform count (tiers_for platform) h
  refine ⟨by rw [h'.1], by rw [h'.1], by rw [h'.1], ?_, h'.2.1, h'.2.2⟩
  have := congrArg List.length h'.2.1
  simpa using this

/-- C5 witness: an always-raising fetcher walks both StepStone tiers and ends
with "none". -/
theorem all_raise_full_history_check :
    (scrape_platform (fun _ => FetchResult.exn "boom") "stepstone" 7).2.length
      = (tiers_for "stepstone").length :=
  (all_raise_full_history (fun _ => FetchResult.exn "boom") "stepstone" 7
    (fun _ => ⟨"boom", rfl⟩)).2.2.2.1

/-- C6: a domain absent from the routing table gets the single-element
Playwright fallback chain, and any resolution of it logs exactly one attempt,
against the Playwright tier. -/
theorem unknown_domain_fallback (d : String)
    (h : PLATFORM_ROUTING.lookup d = none) :
    tiers_for d = ["playwright"] ∧
      ∀ (fetch : String → FetchResult) (count : Nat),
        (scrape_platform fetch d count).2.map FetchOutcome.tier
          = ["playwright"] := by
  have ht : tiers_for d = ["playwright"] := by simp [tiers_for, h]
  refine ⟨ht, fun fetch count => ?_⟩
  simp only [scrape_platform, ht]
  cases hf : fetch "playwright" with
  | ok results =>
    by_cases hc : count ≤ 2 * results.length
    · simp [scrapeTiers, hf, hc]
    · simp [scrapeTiers, hf, hc]
  | exn e =>
    simp [scrapeTiers, hf]

/-- C6 witness: "glassdoor" is not routed, so it resolves through Playwright
alone. -/
theorem unknown_domain_fallback_check :
    tiers_for "glassdoor" = ["playwright"] ∧
      (scrape_platform (fun _ => FetchResult.ok []) "glassdoor" 0).2.map
          FetchOutcome.tier = ["playwright"] :=
  ⟨(unknown_domain_fallback "glassdoor" (by decide)).1,
   (unknown_domain_fallback "glassdoor" (by decide)).2
     (fun _ => FetchResult.ok []) 0⟩

/-- C7: deduplication is idempotent, returns a sublist of its input (hence
preserves first-seen order, never lengthens, and keeps records — provenance
included — verbatim), output keys are pairwise distinct (later duplicates are
discarded), and the first input record bearing any identity key is
retained. -/
theorem dedupe_first_seen (X : List Record) :
    dedupe (dedupe X) = dedupe X ∧
      (dedupe X).Sublist X ∧
      (dedupe X).length ≤ X.length ∧
      (dedupe X).Pairwise (fun a b => identityKey a ≠ identityKey b) ∧
      ∀ r : Record,
        (X.filter (fun x => decide (identityKey x = identityKey r))).head?
            = some r →
        r ∈ dedupe X := by
  refine ⟨dedupeGo_idem X [], dedupeGo_sublist [] X,
    (dedupeGo_sublist [] X).length_le, dedupeGo_pairwise [] X, ?_⟩
  intro r h
  exact dedupeGo_first_mem X [] r (by simp) h

/-- C7 witness: of two records with the same normalised title/company/location
but different source tiers, only the first-seen one (original provenance) is
retained. -/
theorem dedupe_first_seen_check :
    (⟨some "Dev", some "ACME", some "Berlin", none, none, none, none,
        some "brightdata", some "linkedin"⟩ : Record)
      ∈ dedupe
          [⟨some "Dev", some "ACME", some "Berlin", none, none, none, none,
              some "brightdata", some "linkedin"⟩,
           ⟨some " dev", some "acme", some "Berlin ", none, none, none, none,
              some "serpapi", some "linkedin"⟩] :=
  (dedupe_first_seen
      [⟨some "Dev", some "ACME", some "Berlin", none, none, none, none,
          some "brightdata", some "linkedin"⟩,
       ⟨some " dev", some "acme", some "Berlin ", none, none, none, none,
          some "serpapi", some "linkedin"⟩]).2.2.2.2
    ⟨some "Dev", some "ACME", some "Berlin", none, none, none, none,
        some "brightdata", some "linkedin"⟩ (by decide)

/-- C8: every record built by the BrightData, SerpAPI and Playwright-LinkedIn
parse routines carries non-null provenance: the source and platform fields
are set for every input. -/
theorem parsed_records_provenance :
    (∀ (raw : List BDItem) (r : Record),
        r ∈ brightdata_parse_results raw →
        r.source ≠ none ∧ r.platform ≠ none) ∧
      (∀ (raw : List SerpItem) (platform : String) (r : Record),
        r ∈ serpapi_parse_results raw platform →
        r.source ≠ none ∧ r.platform ≠ none) ∧
      (∀ (job_cards : List LinkedInCard) (count : Nat) (r : Record),
        r ∈ playwright_scrape_linkedin job_cards count →
        r.source ≠ none ∧ r.platform ≠ none) := by
  refine ⟨?_, ?_, ?_⟩
  · intro raw r hr
    simp only [brightdata_parse_results] at hr
    obtain ⟨item, _, rfl⟩ := List.mem_map.mp hr
    exact ⟨by simp, by simp⟩
  · intro raw platform r hr
    simp only [serpapi_parse_results] at hr
    obtain ⟨item, _, rfl⟩ := List.mem_map.mp hr
    exact ⟨by simp, by simp⟩
  · intro job_cards count r hr
    simp only [playwright_scrape_linkedin] at hr
    obtain ⟨card, _, rfl⟩ := List.mem_map.mp hr
    exact ⟨by simp, by simp⟩

/-- C8 witness: a BrightData item with every raw field missing still parses to
a record with non-null source. -/
theorem parsed_records_provenance_check :
    (⟨none, none, none, none, none, none, none, some "brightdata",
        some "linkedin"⟩ : Record).source ≠ none :=
  (parsed_records_provenance.1 [⟨none, none, none, none, none, none, none⟩]
    ⟨none, none, none, none, none, none, none, some "brightdata",
      some "linkedin"⟩ (by decide)).1

/-- C9: when a satisfying tier is reported, the returned jobs are exactly the
record list that tier's fetch produced (and the count is its length, with no
error) — records from earlier rejected or failed tiers are never merged in. -/
theorem accepted_tier_records_exact (fetch : String → FetchResult)
    (platform : String) (count : Nat)
    (h : (scrape_platform fetch platform count).1.tier ≠ "none") :
    fetch (scrape_platform fetch platform count).1.tier
        = .ok (scrape_platform fetch platform count).1.jobs ∧
      (scrape_platform fetch platform count).1.count
        = (scrape_platform fetch platform count).1.jobs.length ∧
      (scrape_platform fetch platform count).1.error = none := by
  simp only [scrape_platform] at h ⊢
  have h' := scrapeTiers_tier_fetch fetch platform count (tiers_for platform) h
  exact ⟨h'.1, h'.2.1, h'.2.2.1⟩

/-- C9 witness: with the first LinkedIn tier under-yielding and the second
accepted, the reported count equals the accepted tier's job-list length. -/
theorem accepted_tier_records_exact_check :
    (scrape_platform
        (fun t => if t = "serpapi" then
            FetchResult.ok
              [⟨none, none, none, none, none, none, none, none, none⟩,
               ⟨some "x", none, none, none, none, none, none, none, none⟩]
          else FetchResult.ok [])
        "linkedin" 4).1.count
      = (scrape_platform
          (fun t => if t = "serpapi" then
              FetchResult.ok
                [⟨none, none, none, none, none, none, none, none, none⟩,
                 ⟨some "x", none, none, none, none, none, none, none, none⟩]
            else FetchResult.ok [])
          "linkedin" 4).1.jobs.length :=
  (accepted_tier_records_exact
      (fun t => if t = "serpapi" then
          FetchResult.ok
            [⟨none, none, none, none, none, none, none, none, none⟩,
             ⟨some "x", none, none, none, none, none, none, none, none⟩]
        else FetchResult.ok [])
      "linkedin" 4 (by decide)).2.1

/-- C10: with pairwise-distinct requested platforms, `total_jobs` equals both
the aggregated job-list length and the sum of the per-platform counts; when a
platform repeats among the gathered results, `by_platform` keeps only the
last occurrence's count, so the sum of its values can fall below
`total_jobs` (shown on the aggregation loop with two same-platform results
carrying one and zero jobs). -/
theorem report_totals (F : String → String → FetchResult)
    (platforms : List String) (count : Nat) (hnd : platforms.Nodup) :
    ((mainRun F platforms count).2.2.total_jobs
        = (mainRun F platforms count).2.1.length ∧
      (mainRun F platforms count).2.2.total_jobs
        = sumVals (mainRun F platforms count).2.2.by_platform) ∧
      ((aggregate
            [⟨"linkedin", "brightdata", 1,
                [⟨some "a", none, none, none, none, none, none, none, none⟩],
                none⟩,
             ⟨"linkedin", "serpapi", 0, [], none⟩]).2.by_platform
          = [("linkedin", 0)] ∧
        sumVals (aggregate
            [⟨"linkedin", "brightdata", 1,
                [⟨some "a", none, none, none, none, none, none, none, none⟩],
                none⟩,
             ⟨"linkedin", "serpapi", 0, [], none⟩]).2.by_platform
          < (aggregate
              [⟨"linkedin", "brightdata", 1,
                  [⟨some "a", none, none, none, none, none, none, none, none⟩],
                  none⟩,
               ⟨"linkedin", "serpapi", 0, [], none⟩]).2.total_jobs) := by
  refine ⟨?_, by decide, by decide⟩
  simp only [mainRun, aggregate]
  have hplat := map_result_platform F platforms count
  constructor
  · rw [foldl_agg_total, foldl_agg_len]
    simp
  · have hsum := foldl_agg_by_platform
      (platforms.map (fun p => (scrape_platform (F p) p count).1))
      ([], ⟨0, [], []⟩) (by rw [hplat]; exact hnd)
      (by intro r hr; simp [List.lookup])
    rw [foldl_agg_total, hsum]
    simp [sumVals]

/-- C10 witness: two distinct platforms with empty yields give a consistent
report. -/
theorem report_totals_check :
    (mainRun (fun _ _ => FetchResult.ok []) ["linkedin", "indeed"]
        0).2.2.total_jobs
      = (mainRun (fun _ _ => FetchResult.ok []) ["linkedin", "indeed"]
          0).2.1.length :=
  ((report_totals (fun _ _ => FetchResult.ok []) ["linkedin", "indeed"] 0
    (by decide)).1).1

end JobScraper
